import Mathlib

/-!
Verification of the excel-validator repository.

The development shallowly embeds the two validators of the repository:

* `excel_validator.py` — the generic rule engine (`ExcelValidator.validate_data`
  together with the predicates `validate_email`, `validate_phone` and the inline
  numeric check), and
* `excel_validator_web.py` — the e-commerce pricing/tax validator
  (`EcommerceValidator.validate_prices_and_tax` and `validate`).

Modelling conventions:

* Cell values are the string form Python's `str` would produce; an absent /
  `NaN` cell of the generic validator is `Option.none`.
* Python numbers (`float(...)` results, rule bounds) are modelled as exact
  rationals `ℚ`.  Every comparison the claims exercise is exact at these
  magnitudes, so no floating-point rounding is observable.
* `float(...)` is a Python builtin; `pyFloat?` models it on finite decimal
  literals (optional sign, digits, at most one dot, surrounding whitespace).
  Exponent forms, `inf`/`nan` and digit underscores are outside the model.
* Python string predicates (`str.isdigit`, `\w` in `re`) are modelled on the
  ASCII range; the claims only exercise ASCII data.
* An uncaught Python exception is modelled by a `Bool` fault flag paired with
  the list of records accumulated before the exception was raised (the
  validator object keeps those in `self.validation_results`).
-/

/-! ### Python string helpers -/

/-- Python `s.replace(x, '')` for a single-character pattern `x`: every occurrence of `x` is removed. -/
def removeAll (x : Char) (cs : List Char) : List Char :=
  cs.filter (fun c => c != x)

/-- Models Python `str.strip()`: drop whitespace from both ends. -/
def pyStrip (cs : List Char) : List Char :=
  ((cs.dropWhile Char.isWhitespace).reverse.dropWhile Char.isWhitespace).reverse

/-- Numeric value of a digit run (most significant first). -/
def digitsVal (cs : List Char) : ℕ :=
  cs.foldl (fun a c => 10 * a + (c.toNat - 48)) 0

/-- Value of a parsed decimal literal `ip . fp` with sign `neg`. -/
def decValue (neg : Bool) (ip fp : List Char) : ℚ :=
  let mag : ℚ :=
    if fp.isEmpty then (digitsVal ip : ℚ)
    else (digitsVal ip : ℚ) + (digitsVal fp : ℚ) / ((10 : ℚ) ^ fp.length)
  if neg then -mag else mag

/-- Models the Python builtin `float(s)` on finite decimal literals:
optional surrounding whitespace, optional sign, digits with at most one `.`
(at least one digit overall).  Returns `none` where `float` raises
`ValueError`.  Exponents, `inf`/`nan` and digit underscores are outside the
model (the repository's data never uses them). -/
def pyFloat? (s : String) : Option ℚ :=
  let cs := pyStrip s.toList
  let sgn : Bool × List Char :=
    match cs with
    | '+' :: t => (false, t)
    | '-' :: t => (true, t)
    | t => (false, t)
  match sgn.2.splitOn '.' with
  | [ip] =>
      if !ip.isEmpty && ip.all Char.isDigit then some (decValue sgn.1 ip []) else none
  | [ip, fp] =>
      if (!ip.isEmpty || !fp.isEmpty) && ip.all Char.isDigit && fp.all Char.isDigit
      then some (decValue sgn.1 ip fp) else none
  | _ => none

/-- Models Python `int(x)` on a float value: truncation toward zero. -/
def pyInt (q : ℚ) : ℤ :=
  if q < 0 then -⌊-q⌋ else ⌊q⌋

/-! ### The field predicates of `excel_validator.py` -/

/-- The inline numeric check `str(value).replace('.', '').isdigit()` of
`validate_data` (line 80): remove every `.`, then test that the remainder is a
non-empty run of digits (Python `isdigit` is false on the empty string). -/
def isNumericString (s : String) : Bool :=
  let t := removeAll '.' s.toList
  !t.isEmpty && t.all Char.isDigit

/-- A regex word character `\w` (ASCII fragment): letter, digit or `_`. -/
def isWordChar (c : Char) : Bool :=
  c.isAlphanum || c == '_'

/-- A character of the class `[\w\.-]` of the email pattern. -/
def isLocalChar (c : Char) : Bool :=
  isWordChar c || c == '.' || c == '-'

/-- Matches `\w+` against the whole remaining input: non-empty, all word chars. -/
def tldOK (cs : List Char) : Bool :=
  !cs.isEmpty && cs.all isWordChar

/-- Matches `[\w\.-]*\.\w+` against the whole remaining input: some run of
local-class characters, then a literal dot, then a non-empty word-char run. -/
def domTail : List Char → Bool
  | [] => false
  | c :: cs => (c == '.' && tldOK cs) || (isLocalChar c && domTail cs)

/-- Matches `[\w\.-]+\.\w+` against the whole remaining input (the part after `@`). -/
def domOK : List Char → Bool
  | [] => false
  | c :: cs => isLocalChar c && domTail cs

/-- The part of the email pattern after the first local character:
`[\w\.-]*@[\w\.-]+\.\w+` matching the whole remaining input. -/
def emailAfterLocal : List Char → Bool
  | [] => false
  | c :: cs => if c = '@' then domOK cs else (isLocalChar c && emailAfterLocal cs)

/-- The email pattern `[\w\.-]+@[\w\.-]+\.\w+` matching an entire character
list. -/
def emailCore : List Char → Bool
  | [] => false
  | c :: cs => isLocalChar c && emailAfterLocal cs

/-- The predicate `ExcelValidator.validate_email`, i.e.
`re.match(r'^[\w\.-]+@[\w\.-]+\.\w+$', s)`.
`re.match` anchors at the start, and `$` matches at the end of the string or
just before a newline that ends the string — hence the second disjunct. -/
def validate_email (s : String) : Bool :=
  let cs := s.toList
  emailCore cs || (cs.getLast? == some '\n' && emailCore cs.dropLast)

/-- Drops one optional leading `+` (the `\+?` of the phone pattern). -/
def dropPlus : List Char → List Char
  | '+' :: t => t
  | t => t

/-- Matches `1?\d{9,15}` against the whole remaining input.  The regex engine may or
may not use the optional `1` — the two disjuncts cover both alternatives. -/
def phoneDigits (cs : List Char) : Bool :=
  (cs.all Char.isDigit && 9 ≤ cs.length && cs.length ≤ 15) ||
  (cs.head? == some '1' && cs.all Char.isDigit && 10 ≤ cs.length && cs.length ≤ 16)

/-- The phone pattern `\+?1?\d{9,15}` matching an entire character list. -/
def phoneCore (cs : List Char) : Bool :=
  phoneDigits (dropPlus cs)

/-- The predicate `ExcelValidator.validate_phone`, i.e.
`re.match(r'^\+?1?\d{9,15}$', s)`, with
the same end-of-string-or-final-newline behaviour of `$`. -/
def validate_phone (s : String) : Bool :=
  let cs := s.toList
  phoneCore cs || (cs.getLast? == some '\n' && phoneCore cs.dropLast)

/-! ### Generic rule engine (`ExcelValidator.validate_data`) -/

/-- The type tags `validate_data` dispatches on (`rule['type']`). -/
inductive FieldType
  | email
  | phone
  | numeric
deriving DecidableEq

/-- A rule dictionary.  `rule.get('required', False)` defaults to `false`;
the other keys are presence-tested with `in`, hence `Option`. -/
structure FieldRule where
  required : Bool := false
  ty : Option FieldType := none
  min : Option ℚ := none
  max : Option ℚ := none
  allowed_values : Option (List String) := none
deriving DecidableEq

/-- The `Value` field of a result record: the literal string `'N/A'` used for
missing columns, or the cell value (possibly `NaN`, i.e. `none`). -/
inductive ErrVal
  | NA
  | cell (v : Option String)
deriving DecidableEq

/-- The `Error` field of a result record, one constructor per message the
source can produce; parameters are the data interpolated into the f-string. -/
inductive ErrMsg
  | columnNotFound
  | requiredEmpty
  | invalidEmail
  | invalidPhone
  | notANumber
  | belowMin (m : ℚ)
  | aboveMax (m : ℚ)
  | notInAllowed (l : List String)
deriving DecidableEq

/-- One entry of `self.validation_results`. -/
structure ErrorRecord where
  Row : ℕ
  Column : String
  Value : ErrVal
  Error : ErrMsg
deriving DecidableEq

/-- A data-frame row: column name to cell value (`none` models `NaN`). -/
abbrev GRow : Type := List (String × Option String)

/-- Cell access `row[column]` on a row whose column set is checked separately; a column
absent from the association list behaves as an empty cell. -/
def rowGet (r : GRow) (c : String) : Option String :=
  match List.lookup c r with
  | some v => v
  | none => none

/-- The loaded data frame: its column set and its rows. -/
structure Table where
  columns : List String
  rows : List GRow

/-- The three `rule['type']` branches of `validate_data` (lines 64–86).  At
most one record is appended, chosen by the `if`/`elif` chain. -/
def typeErrors (rn : ℕ) (col : String) (rule : FieldRule) (s : String) : List ErrorRecord :=
  match rule.ty with
  | some .email => if validate_email s then [] else [⟨rn, col, .cell (some s), .invalidEmail⟩]
  | some .phone => if validate_phone s then [] else [⟨rn, col, .cell (some s), .invalidPhone⟩]
  | some .numeric => if isNumericString s then [] else [⟨rn, col, .cell (some s), .notANumber⟩]
  | none => []

/-- Range check `if 'min' in rule and float(value) < rule['min']` (lines 88–95).  The
`Bool` is the fault flag: `float(value)` raising `ValueError` is an uncaught
exception; it aborts the whole run. -/
def minCheck (rn : ℕ) (col : String) (rule : FieldRule) (s : String) :
    List ErrorRecord × Bool :=
  match rule.min with
  | none => ([], false)
  | some m =>
    match pyFloat? s with
    | none => ([], true)
    | some q => (if q < m then [⟨rn, col, .cell (some s), .belowMin m⟩] else [], false)

/-- Range check `if 'max' in rule and float(value) > rule['max']` (lines 96–102). -/
def maxCheck (rn : ℕ) (col : String) (rule : FieldRule) (s : String) :
    List ErrorRecord × Bool :=
  match rule.max with
  | none => ([], false)
  | some m =>
    match pyFloat? s with
    | none => ([], true)
    | some q => (if m < q then [⟨rn, col, .cell (some s), .aboveMax m⟩] else [], false)

/-- Membership check `if 'allowed_values' in rule and value not in
rule['allowed_values']` (lines 104–111). -/
def allowedCheck (rn : ℕ) (col : String) (rule : FieldRule) (s : String) :
    List ErrorRecord :=
  match rule.allowed_values with
  | none => []
  | some l => if s ∈ l then [] else [⟨rn, col, .cell (some s), .notInAllowed l⟩]

/-- The per-cell body of `validate_data` (lines 48–111): required check with
`continue`, empty-cell skip, then the independent type / min / max /
allowed-values checks.  The `Bool` component is `true` when an unguarded
`float(value)` conversion raised, aborting the run; the list holds the records
appended before that point. -/
def checkCell (rn : ℕ) (col : String) (rule : FieldRule) (v : Option String) :
    List ErrorRecord × Bool :=
  match v with
  | none =>
    if rule.required then ([⟨rn, col, .cell none, .requiredEmpty⟩], false)
    else ([], false)
  | some s =>
    let e1 := typeErrors rn col rule s
    let mn := minCheck rn col rule s
    if mn.2 then (e1 ++ mn.1, true) else
    let mx := maxCheck rn col rule s
    if mx.2 then (e1 ++ mn.1 ++ mx.1, true) else
    (e1 ++ mn.1 ++ mx.1 ++ allowedCheck rn col rule s, false)

/-- One iteration of the `for column, rule in rules.items()` loop body
(lines 38–111): a missing column yields one record and `continue`. -/
def checkColumn (cols : List String) (rn : ℕ) (row : GRow) (col : String)
    (rule : FieldRule) : List ErrorRecord × Bool :=
  if col ∈ cols then checkCell rn col rule (rowGet row col)
  else ([⟨rn, col, .NA, .columnNotFound⟩], false)

/-- The `for column, rule in rules.items()` loop over one row; an uncaught
conversion fault stops the loop (and the whole run). -/
def checkRow (cols : List String) (rn : ℕ) (row : GRow) :
    List (String × FieldRule) → List ErrorRecord × Bool
  | [] => ([], false)
  | (c, r) :: rest =>
    let e := checkColumn cols rn row c r
    if e.2 then (e.1, true)
    else
      let e' := checkRow cols rn row rest
      (e.1 ++ e'.1, e'.2)

/-- The `for index, row in self.df.iterrows()` loop (line 35); `rn` is
`index + 2`. -/
def validateRows (rules : List (String × FieldRule)) (cols : List String) :
    ℕ → List GRow → List ErrorRecord × Bool
  | _, [] => ([], false)
  | rn, row :: rest =>
    let e := checkRow cols rn row rules
    if e.2 then (e.1, true)
    else
      let e' := validateRows rules cols (rn + 1) rest
      (e.1 ++ e'.1, e'.2)

/-- The engine `ExcelValidator.validate_data(rules)`: the records accumulated in
`self.validation_results` paired with the fault flag (a raised, uncaught
`ValueError` from `float(...)`).  The rule dictionary is an association list
in iteration order. -/
def validate_data (rules : List (String × FieldRule)) (t : Table) :
    List ErrorRecord × Bool :=
  validateRows rules t.columns 2 t.rows

/-- The mutable state of an `ExcelValidator` instance relevant to
`validate_data`: its accumulated `self.validation_results`. -/
structure VState where
  validation_results : List ErrorRecord

/-- A call of `validate_data` on an instance: line 33 replaces
`self.validation_results` with a fresh empty list, then the loop appends the
records of this run (also when the run is aborted by a conversion fault the
records appended so far stay in the instance). -/
def validate_data_run (rules : List (String × FieldRule)) (t : Table)
    (s : VState) : VState :=
  let s1 : VState := { s with validation_results := [] }
  { s1 with validation_results := s1.validation_results ++ (validate_data rules t).1 }

/-! ### E-commerce validator (`EcommerceValidator`) -/

/-- A row of the uploaded sheet for the web validator; all cells are taken in
their `str(...)` form.  A missing column makes `row[...]` raise `KeyError`. -/
abbrev WRow : Type := List (String × String)

/-- Cell access `row[c]` on a web row: `none` models a raised `KeyError`. -/
def wGet (r : WRow) (c : String) : Option String :=
  List.lookup c r

/-- The exception caught by the `except` clause of
`validate_prices_and_tax`, with the data its message carries. -/
inductive ParseErr
  | keyError (col : String)
  | valueError (s : String)
deriving DecidableEq

deriving instance DecidableEq for Except

/-- The `Type`/`Error` content of one entry of `self.errors`; parameters are
the data interpolated into the corresponding f-string. -/
inductive WebMsg
  | priceError (mapPrice mrp : ℚ)
  | taxError (taxRate : ℤ) (salePrice : ℚ) (expected : ℤ)
  | dataError (e : ParseErr)
deriving DecidableEq

/-- One entry of `EcommerceValidator.self.errors`. -/
structure WebError where
  Row : ℕ
  Msg : WebMsg
deriving DecidableEq

/-- Currency parsing `float(str(row[col]).replace(',',
'').replace('₹', '').strip())` (lines 26–28). -/
def parseMoney (row : WRow) (col : String) : Except ParseErr ℚ :=
  match wGet row col with
  | none => .error (.keyError col)
  | some s =>
    let t := pyStrip (removeAll '₹' (removeAll ',' s.toList))
    match pyFloat? (String.mk t) with
    | none => .error (.valueError (String.mk t))
    | some q => .ok q

/-- Lines 31–34: strip a `%` glyph, convert, and scale a fractional rate:
`if tax_rate < 1: tax_rate = tax_rate * 100`. -/
def parseTax (row : WRow) : Except ParseErr ℚ :=
  match wGet row "Tax Rate" with
  | none => .error (.keyError "Tax Rate")
  | some s =>
    let t := pyStrip (removeAll '%' s.toList)
    match pyFloat? (String.mk t) with
    | none => .error (.valueError (String.mk t))
    | some q => .ok (if q < 1 then q * 100 else q)

/-- The four cell conversions of the `try` block, in source order; the first
raised exception wins. -/
def parseWebRow (row : WRow) : Except ParseErr (ℚ × ℚ × ℚ × ℚ) := do
  let mapPrice ← parseMoney row "MAP"
  let mrp ← parseMoney row "MRP (O)"
  let salePrice ← parseMoney row "Sale Price (inc tax)"
  let taxRate ← parseTax row
  pure (mapPrice, mrp, salePrice, taxRate)

/-- The body of the per-row `try`/`except` of `validate_prices_and_tax`
(lines 24–58): on a parse failure a single Data Error record; otherwise the
MAP-vs-MRP check followed by the tax-tier check. -/
def checkWebRow (rn : ℕ) (row : WRow) : List WebError :=
  match parseWebRow row with
  | .error e => [⟨rn, .dataError e⟩]
  | .ok (mapPrice, mrp, salePrice, taxRate) =>
    let priceErrs := if mapPrice ≥ mrp then [⟨rn, WebMsg.priceError mapPrice mrp⟩] else []
    let expected : ℤ := if salePrice > 999 then 18 else 12
    let taxErrs :=
      if pyInt taxRate ≠ expected then [⟨rn, WebMsg.taxError (pyInt taxRate) salePrice expected⟩]
      else []
    priceErrs ++ taxErrs

/-- The `for index, row in self.df.iterrows()` loop of
`validate_prices_and_tax`; `rn` is `index + 2`. -/
def webRowsLoop : ℕ → List WRow → List WebError
  | _, [] => []
  | rn, row :: rest => checkWebRow rn row ++ webRowsLoop (rn + 1) rest

/-- The method `EcommerceValidator.validate_prices_and_tax` over the loaded rows. -/
def validate_prices_and_tax (rows : List WRow) : List WebError :=
  webRowsLoop 2 rows

/-- The summary dict prepared by `EcommerceValidator.validate`
(lines 67–75): invalid = number of distinct row numbers in the error list. -/
structure WebSummary where
  total_rows : ℕ
  valid_rows : ℕ
  invalid_rows : ℕ
deriving DecidableEq

/-- The mutable state of an `EcommerceValidator` instance: `self.errors` and
`self.summary`. -/
structure WState where
  errors : List WebError
  summary : WebSummary

/-- The method `EcommerceValidator.validate()`: reset `self.errors`, run
`validate_prices_and_tax`, then derive the summary from the fresh error
list. -/
def webValidateRun (rows : List WRow) (s : WState) : WState :=
  let s1 : WState := { s with errors := [] }
  let s2 : WState := { s1 with errors := s1.errors ++ validate_prices_and_tax rows }
  let invalid := (s2.errors.map (fun e => e.Row)).dedup.length
  { s2 with summary := ⟨rows.length, rows.length - invalid, invalid⟩ }

/-! ### Spec-side definitions

These two definitions follow the specification's words (§4.1), to be compared
with the source-derived predicates above. -/

/-- The spec's description of the numeric predicate: "true iff the string,
with at most one `.` removed, consists entirely of digits" — either the
string itself is a (non-empty) digit run, or it contains exactly one `.` and
the string with that `.` removed is a (non-empty) digit run. -/
def spec_isNumericString (s : String) : Bool :=
  let cs := s.toList
  (!cs.isEmpty && cs.all Char.isDigit) ||
  ((cs.count '.' == 1) && !(removeAll '.' cs).isEmpty && (removeAll '.' cs).all Char.isDigit)

/-- The spec's description of the email predicate: the entire string is
`local-part@domain.tld`, local-part and domain non-empty runs of
word-characters/dot/hyphen, tld a non-empty run of word characters. -/
def EmailPattern (cs : List Char) : Prop :=
  ∃ l d t : List Char,
    cs = l ++ '@' :: (d ++ '.' :: t) ∧
    l ≠ [] ∧ (∀ c ∈ l, isLocalChar c) ∧
    d ≠ [] ∧ (∀ c ∈ d, isLocalChar c) ∧
    t ≠ [] ∧ (∀ c ∈ t, isWordChar c)

/-! ### Helper lemmas -/

/-- Discriminator for Price Error records. -/
def WebMsg.isPrice : WebMsg → Bool
  | .priceError .. => true
  | _ => false

/-- Discriminator for Tax Error records. -/
def WebMsg.isTax : WebMsg → Bool
  | .taxError .. => true
  | _ => false

theorem parseWebRow_ok_iff (row : WRow) (a b c d : ℚ) :
    parseWebRow row = .ok (a, b, c, d) ↔
      parseMoney row "MAP" = .ok a ∧ parseMoney row "MRP (O)" = .ok b ∧
      parseMoney row "Sale Price (inc tax)" = .ok c ∧ parseTax row = .ok d := by
  unfold parseWebRow
  cases h1 : parseMoney row "MAP" <;> cases h2 : parseMoney row "MRP (O)" <;>
    cases h3 : parseMoney row "Sale Price (inc tax)" <;> cases h4 : parseTax row <;>
    simp [bind, Except.bind, pure, Except.pure, and_assoc]

theorem webRowsLoop_append (pre post : List WRow) (rn : ℕ) :
    webRowsLoop rn (pre ++ post) =
      webRowsLoop rn pre ++ webRowsLoop (rn + pre.length) post := by
  induction pre generalizing rn with
  | nil => simp [webRowsLoop]
  | cons r rs ih =>
    simp only [List.cons_append, webRowsLoop, List.length_cons, List.append_assoc]
    rw [show rs.append post = rs ++ post from rfl, ih (rn + 1)]
    have h : rn + 1 + rs.length = rn + (rs.length + 1) := by omega
    rw [h]

/-! ### Claim theorems -/

/-- Claim C3 (confirmed): for a ruled column present in the table whose cell
is empty/missing, a required rule yields exactly the one
`Required field is empty` record and no further check runs on that cell (and
no conversion fault arises from it); a non-required rule yields no record at
all for that cell. -/
theorem required_empty_cell_checks (cols : List String) (rn : ℕ) (row : GRow)
    (col : String) (rule : FieldRule)
    (hcol : col ∈ cols) (hempty : rowGet row col = none) :
    (rule.required = true →
      checkColumn cols rn row col rule =
        ([⟨rn, col, .cell none, .requiredEmpty⟩], false)) ∧
    (rule.required = false → checkColumn cols rn row col rule = ([], false)) := by
  constructor <;> intro hreq <;> simp [checkColumn, checkCell, hcol, hempty, hreq]

theorem required_empty_cell_checks_witness :
    checkColumn ["Email"] 2 [("Email", none)] "Email"
        { required := true, ty := some FieldType.email } =
      ([⟨2, "Email", .cell none, .requiredEmpty⟩], false) ∧
    checkColumn ["Note"] 2 [("Note", none)] "Note" {} = ([], false) :=
  ⟨(required_empty_cell_checks ["Email"] 2 [("Email", none)] "Email"
      { required := true, ty := some FieldType.email } (by decide) (by decide)).1 rfl,
   (required_empty_cell_checks ["Note"] 2 [("Note", none)] "Note" {}
      (by decide) (by decide)).2 rfl⟩

/-- Claim C4 (confirmed): the type / min / max / allowed-values checks are
independent — under the Age rule (required, numeric, min 0, max 120) the
single cell `"-5"` accumulates both a `Not a valid number` record and a
`Value below minimum (0)` record in one completed run. -/
theorem independent_checks_accumulate :
    validate_data
        [("Age", { required := true, ty := some FieldType.numeric,
                   min := some 0, max := some 120 })]
        ⟨["Age"], [[("Age", some "-5")]]⟩ =
      ([⟨2, "Age", .cell (some "-5"), .notANumber⟩,
        ⟨2, "Age", .cell (some "-5"), .belowMin 0⟩], false) := by decide

/-- Claim C8 (confirmed): both validators are deterministic and idempotent —
each run replaces the instance's accumulated list, so the state after a run
does not depend on the state before it, and two runs on the same input leave
identical record sequences (equal order and content) and summary. -/
theorem validate_idempotent :
    (∀ (rules : List (String × FieldRule)) (t : Table) (s : VState),
      validate_data_run rules t (validate_data_run rules t s) =
        validate_data_run rules t s) ∧
    (∀ (rules : List (String × FieldRule)) (t : Table) (s s' : VState),
      (validate_data_run rules t s).validation_results =
        (validate_data_run rules t s').validation_results) ∧
    (∀ (rows : List WRow) (s : WState),
      webValidateRun rows (webValidateRun rows s) = webValidateRun rows s) ∧
    (∀ (rows : List WRow) (s s' : WState),
      (webValidateRun rows s).errors = (webValidateRun rows s').errors ∧
      (webValidateRun rows s).summary = (webValidateRun rows s').summary) :=
  ⟨fun _ _ _ => rfl, fun _ _ _ _ => rfl, fun _ _ => rfl, fun _ _ _ => ⟨rfl, rfl⟩⟩

/-- Claim C5 (confirmed): when the four domain cells of a row parse, the
tax-rate cell was read by stripping `%` and scaling a value `< 1` by `100`,
and a Tax Error record is emitted exactly when the truncated integer tax rate
differs from the tier expectation (18 above a Sale Price of 999, else 12). -/
theorem tax_error_iff_wrong_tier (rn : ℕ) (row : WRow) (a b c d : ℚ)
    (s : String) (q : ℚ)
    (h : parseWebRow row = .ok (a, b, c, d))
    (hs : wGet row "Tax Rate" = some s)
    (hq : pyFloat? (String.mk (pyStrip (removeAll '%' s.toList))) = some q) :
    d = (if q < 1 then q * 100 else q) ∧
    (checkWebRow rn row).filter (fun e => e.Msg.isTax) =
      (if pyInt d ≠ (if c > 999 then (18 : ℤ) else 12)
       then [⟨rn, .taxError (pyInt d) c (if c > 999 then 18 else 12)⟩]
       else []) := by
  have htax : parseTax row = .ok d := ((parseWebRow_ok_iff row a b c d).mp h).2.2.2
  constructor
  · simp only [parseTax, hs, hq] at htax
    simpa using htax.symm
  · simp only [checkWebRow, h]
    by_cases hp : a ≥ b <;>
      by_cases ht : pyInt d ≠ (if c > 999 then (18 : ℤ) else 12) <;>
      simp [hp, ht, WebMsg.isTax, WebMsg.isPrice]

theorem tax_error_iff_wrong_tier_witness :
    (18 : ℚ) = (if (18 : ℚ) < 1 then 18 * 100 else 18) ∧
    (checkWebRow 2 [("MAP", "100"), ("MRP (O)", "90"),
        ("Sale Price (inc tax)", "1200"), ("Tax Rate", "18%")]).filter
        (fun e => e.Msg.isTax) =
      (if pyInt 18 ≠ (if (1200 : ℚ) > 999 then (18 : ℤ) else 12)
       then [⟨2, .taxError (pyInt 18) 1200 (if (1200 : ℚ) > 999 then 18 else 12)⟩]
       else []) :=
  tax_error_iff_wrong_tier 2
    [("MAP", "100"), ("MRP (O)", "90"),
     ("Sale Price (inc tax)", "1200"), ("Tax Rate", "18%")]
    100 90 1200 18 "18%" 18 (by decide) (by decide) (by decide)

/-- Claim C6 (confirmed): when the four domain cells of a row parse (after
stripping `,` and `₹` from the currency cells), exactly one Price Error
record is emitted for the row when the parsed MAP is `≥` the parsed MRP, and
none otherwise. -/
theorem price_error_iff_map_ge_mrp (rn : ℕ) (row : WRow) (a b c d : ℚ)
    (h : parseWebRow row = .ok (a, b, c, d)) :
    (checkWebRow rn row).filter (fun e => e.Msg.isPrice) =
      (if a ≥ b then [⟨rn, .priceError a b⟩] else []) := by
  simp only [checkWebRow, h]
  by_cases hp : a ≥ b <;>
    by_cases ht : pyInt d ≠ (if c > 999 then (18 : ℤ) else 12) <;>
    simp [hp, ht, WebMsg.isPrice, WebMsg.isTax]

theorem price_error_iff_map_ge_mrp_witness :
    (checkWebRow 2 [("MAP", "100"), ("MRP (O)", "90"),
        ("Sale Price (inc tax)", "1100"), ("Tax Rate", "18%")]).filter
        (fun e => e.Msg.isPrice) =
      (if (100 : ℚ) ≥ 90 then [⟨2, .priceError 100 90⟩] else []) :=
  price_error_iff_map_ge_mrp 2
    [("MAP", "100"), ("MRP (O)", "90"),
     ("Sale Price (inc tax)", "1100"), ("Tax Rate", "18%")]
    100 90 1100 18 (by decide)

/-- Claim C7 (confirmed): a row whose parse fails yields exactly one Data
Error record carrying the caught exception, with neither structured check
firing for that row, and the loop is not aborted — the output over any
surrounding rows decomposes into the outputs for the rows before, this row,
and the rows after. -/
theorem parse_failure_single_data_error (rn : ℕ) (row : WRow) (e : ParseErr)
    (pre post : List WRow) (h : parseWebRow row = .error e) :
    checkWebRow rn row = [⟨rn, .dataError e⟩] ∧
    validate_prices_and_tax (pre ++ row :: post) =
      validate_prices_and_tax pre ++ checkWebRow (2 + pre.length) row ++
        webRowsLoop (2 + pre.length + 1) post := by
  constructor
  · simp [checkWebRow, h]
  · unfold validate_prices_and_tax
    rw [webRowsLoop_append]
    simp [webRowsLoop, List.append_assoc]

theorem parse_failure_single_data_error_witness :
    checkWebRow 2 [("MAP", "abc"), ("MRP (O)", "90"),
        ("Sale Price (inc tax)", "1200"), ("Tax Rate", "12%")] =
      [⟨2, .dataError (.valueError "abc")⟩] ∧
    validate_prices_and_tax ([] ++
        [("MAP", "abc"), ("MRP (O)", "90"),
         ("Sale Price (inc tax)", "1200"), ("Tax Rate", "12%")] ::
        [[("MAP", "80"), ("MRP (O)", "90"),
          ("Sale Price (inc tax)", "1200"), ("Tax Rate", "18%")]]) =
      validate_prices_and_tax [] ++
        checkWebRow (2 + List.length ([] : List WRow))
          [("MAP", "abc"), ("MRP (O)", "90"),
           ("Sale Price (inc tax)", "1200"), ("Tax Rate", "12%")] ++
        webRowsLoop (2 + List.length ([] : List WRow) + 1)
          [[("MAP", "80"), ("MRP (O)", "90"),
            ("Sale Price (inc tax)", "1200"), ("Tax Rate", "18%")]] :=
  parse_failure_single_data_error 2
    [("MAP", "abc"), ("MRP (O)", "90"),
     ("Sale Price (inc tax)", "1200"), ("Tax Rate", "12%")]
    (.valueError "abc") []
    [[("MAP", "80"), ("MRP (O)", "90"),
      ("Sale Price (inc tax)", "1200"), ("Tax Rate", "18%")]]
    (by decide)

theorem minCheck_error_kinds (rn : ℕ) (col : String) (rule : FieldRule) (s : String) :
    ∀ r ∈ (minCheck rn col rule s).1, ∃ m, r.Error = ErrMsg.belowMin m := by
  cases hm : rule.min with
  | none => simp [minCheck, hm]
  | some m =>
    cases hq : pyFloat? s with
    | none => simp [minCheck, hm, hq]
    | some q => by_cases hlt : q < m <;> simp [minCheck, hm, hq, hlt]

theorem maxCheck_error_kinds (rn : ℕ) (col : String) (rule : FieldRule) (s : String) :
    ∀ r ∈ (maxCheck rn col rule s).1, ∃ m, r.Error = ErrMsg.aboveMax m := by
  cases hm : rule.max with
  | none => simp [maxCheck, hm]
  | some m =>
    cases hq : pyFloat? s with
    | none => simp [maxCheck, hm, hq]
    | some q => by_cases hlt : m < q <;> simp [maxCheck, hm, hq, hlt]

theorem allowedCheck_error_kinds (rn : ℕ) (col : String) (rule : FieldRule) (s : String) :
    ∀ r ∈ allowedCheck rn col rule s, ∃ l, r.Error = ErrMsg.notInAllowed l := by
  cases ha : rule.allowed_values with
  | none => simp [allowedCheck, ha]
  | some l => by_cases hmem : s ∈ l <;> simp [allowedCheck, ha, hmem]

theorem typeErrors_error_kinds (rn : ℕ) (col : String) (rule : FieldRule) (s : String) :
    ∀ r ∈ typeErrors rn col rule s,
      r.Error = ErrMsg.invalidEmail ∨ r.Error = ErrMsg.invalidPhone ∨
        r.Error = ErrMsg.notANumber := by
  cases hty : rule.ty with
  | none => simp [typeErrors, hty]
  | some ft =>
    cases ft <;>
      [ by_cases hv : validate_email s;
        by_cases hv : validate_phone s;
        by_cases hv : isNumericString s ] <;>
      simp [typeErrors, hty, hv]

theorem checkCell_notANumber_mem (rn : ℕ) (col : String) (rule : FieldRule)
    (s : String) (hty : rule.ty = some FieldType.numeric) :
    ((⟨rn, col, .cell (some s), .notANumber⟩ : ErrorRecord) ∈
        (checkCell rn col rule (some s)).1) ↔ isNumericString s = false := by
  have hnmin : (⟨rn, col, .cell (some s), .notANumber⟩ : ErrorRecord) ∉
      (minCheck rn col rule s).1 := by
    intro h
    obtain ⟨m, hm⟩ := minCheck_error_kinds rn col rule s _ h
    simp at hm
  have hnmax : (⟨rn, col, .cell (some s), .notANumber⟩ : ErrorRecord) ∉
      (maxCheck rn col rule s).1 := by
    intro h
    obtain ⟨m, hm⟩ := maxCheck_error_kinds rn col rule s _ h
    simp at hm
  have hnal : (⟨rn, col, .cell (some s), .notANumber⟩ : ErrorRecord) ∉
      allowedCheck rn col rule s := by
    intro h
    obtain ⟨l, hl⟩ := allowedCheck_error_kinds rn col rule s _ h
    simp at hl
  have he1 : ((⟨rn, col, .cell (some s), .notANumber⟩ : ErrorRecord) ∈
      typeErrors rn col rule s) ↔ isNumericString s = false := by
    by_cases hn : isNumericString s <;> simp [typeErrors, hty, hn]
  simp only [checkCell]
  by_cases h1 : (minCheck rn col rule s).2 <;>
    by_cases h2 : (maxCheck rn col rule s).2 <;>
    simp [h1, h2, List.mem_append, hnmin, hnmax, hnal, he1]

/-- Claim C1 counterexample: the inline numeric check removes every dot (the
Python call is `replace('.', '')`), so `"1.2.3"` is accepted, while the
spec's "at most one `.` removed" predicate rejects it. -/
theorem numeric_predicate_multidot_cex :
    isNumericString "1.2.3" = true ∧ spec_isNumericString "1.2.3" = false := by
  decide

/-- Claim C1 (corrected): the numeric-type predicate is true iff the cell's
string form with every `.` removed is a non-empty run of digits — so
`"12.5"` and `"125"` are accepted, `"-5"` is rejected, but `"1.2.3"` is
accepted as well; and for every non-empty cell under a rule of type
`numeric`, a `Not a valid number` record for that cell is emitted exactly
when this predicate is false. -/
theorem numeric_predicate_and_record (s : String) (rn : ℕ) (col : String)
    (rule : FieldRule) (hty : rule.ty = some FieldType.numeric) :
    (isNumericString s = true ↔
      ((removeAll '.' s.toList).isEmpty = false ∧
        (removeAll '.' s.toList).all Char.isDigit = true)) ∧
    ((⟨rn, col, .cell (some s), .notANumber⟩ : ErrorRecord) ∈
        (checkCell rn col rule (some s)).1 ↔ isNumericString s = false) := by
  refine ⟨?_, checkCell_notANumber_mem rn col rule s hty⟩
  simp [isNumericString, Bool.and_eq_true, Bool.not_eq_true']

theorem numeric_predicate_and_record_witness :
    (isNumericString "-5" = true ↔
      ((removeAll '.' "-5".toList).isEmpty = false ∧
        (removeAll '.' "-5".toList).all Char.isDigit = true)) ∧
    ((⟨2, "Age", .cell (some "-5"), .notANumber⟩ : ErrorRecord) ∈
        (checkCell 2 "Age"
          { required := true, ty := some FieldType.numeric,
            min := some 0, max := some 120 } (some "-5")).1 ↔
      isNumericString "-5" = false) :=
  numeric_predicate_and_record "-5" 2 "Age"
    { required := true, ty := some FieldType.numeric,
      min := some 0, max := some 120 } rfl

theorem checkCell_fault (rn : ℕ) (col : String) (rule : FieldRule) (s : String)
    (hmm : rule.min.isSome ∨ rule.max.isSome) (hp : pyFloat? s = none) :
    (checkCell rn col rule (some s)).2 = true := by
  cases hmin : rule.min with
  | some m => simp [checkCell, minCheck, hmin, hp]
  | none =>
    cases hmax : rule.max with
    | some m => simp [checkCell, minCheck, maxCheck, hmin, hmax, hp]
    | none => simp [hmin, hmax] at hmm

theorem checkRow_fault (cols : List String) (rn : ℕ) (row : GRow)
    (rules : List (String × FieldRule)) (col : String) (rule : FieldRule)
    (s : String) (hmem : (col, rule) ∈ rules) (hcol : col ∈ cols)
    (hval : rowGet row col = some s)
    (hmm : rule.min.isSome ∨ rule.max.isSome) (hp : pyFloat? s = none) :
    (checkRow cols rn row rules).2 = true := by
  induction rules with
  | nil => cases hmem
  | cons hd tl ih =>
    obtain ⟨c', r'⟩ := hd
    rcases List.mem_cons.mp hmem with heq | hmem'
    · obtain ⟨rfl, rfl⟩ := Prod.mk.injEq .. ▸ heq
      have hf : (checkColumn cols rn row col rule).2 = true := by
        simp [checkColumn, hcol, hval, checkCell_fault rn col rule s hmm hp]
      simp [checkRow, hf]
    · cases hf : (checkColumn cols rn row c' r').2 <;>
        simp [checkRow, hf, ih hmem']

theorem validateRows_fault (rules : List (String × FieldRule))
    (cols : List String) (rows : List GRow) (rn : ℕ) (row : GRow)
    (col : String) (rule : FieldRule) (s : String)
    (hrow : row ∈ rows) (hmem : (col, rule) ∈ rules) (hcol : col ∈ cols)
    (hval : rowGet row col = some s)
    (hmm : rule.min.isSome ∨ rule.max.isSome) (hp : pyFloat? s = none) :
    (validateRows rules cols rn rows).2 = true := by
  induction rows generalizing rn with
  | nil => cases hrow
  | cons hd tl ih =>
    rcases List.mem_cons.mp hrow with heq | hmem'
    · subst heq
      have hf := checkRow_fault cols rn row rules col rule s hmem hcol hval hmm hp
      simp [validateRows, hf]
    · cases hf : (checkRow cols rn hd rules).2 <;>
        simp [validateRows, hf, ih (rn + 1) hmem']

/-- Claim C2 (confirmed): whenever some row has, under a rule carrying `min`
or `max`, a non-empty cell in a present column whose text does not parse as a
float, the whole `validate_data` run aborts with the uncaught conversion
fault — no completed error list is produced and the failure is not recorded
as an Error Record. -/
theorem conversion_fault_aborts_run (rules : List (String × FieldRule))
    (t : Table)
    (h : ∃ row ∈ t.rows, ∃ p ∈ rules, p.1 ∈ t.columns ∧
      ∃ s, rowGet row p.1 = some s ∧ (p.2.min.isSome ∨ p.2.max.isSome) ∧
        pyFloat? s = none) :
    (validate_data rules t).2 = true := by
  obtain ⟨row, hrow, ⟨col, rule⟩, hmem, hcol, s, hval, hmm, hp⟩ := h
  exact validateRows_fault rules t.columns t.rows 2 row col rule s
    hrow hmem hcol hval hmm hp

theorem conversion_fault_aborts_run_witness :
    (validate_data [("Age", { min := some 0 })]
      ⟨["Age"], [[("Age", some "abc")]]⟩).2 = true :=
  conversion_fault_aborts_run [("Age", { min := some 0 })]
    ⟨["Age"], [[("Age", some "abc")]]⟩
    ⟨[("Age", some "abc")], by decide, ("Age", { min := some 0 }), by decide,
      by decide, "abc", by decide, Or.inl (by decide), by decide⟩

/-- Records counted by claim C10: a `Column not found in Excel file` record
(with Value `'N/A'`) for column `c`. -/
def isCNFfor (c : String) (e : ErrorRecord) : Bool :=
  e.Column == c && e.Value == ErrVal.NA && e.Error == ErrMsg.columnNotFound

theorem checkCell_no_columnNotFound (rn : ℕ) (col : String) (rule : FieldRule)
    (v : Option String) :
    ∀ r ∈ (checkCell rn col rule v).1, r.Error ≠ ErrMsg.columnNotFound := by
  intro r hr
  cases v with
  | none =>
    by_cases hreq : rule.required
    · simp [checkCell, hreq] at hr
      subst hr
      simp
    · simp [checkCell, hreq] at hr
  | some s =>
    have hsub : r ∈ typeErrors rn col rule s ∨ r ∈ (minCheck rn col rule s).1 ∨
        r ∈ (maxCheck rn col rule s).1 ∨ r ∈ allowedCheck rn col rule s := by
      simp only [checkCell] at hr
      by_cases h1 : (minCheck rn col rule s).2 <;>
        by_cases h2 : (maxCheck rn col rule s).2 <;>
        simp [h1, h2] at hr <;> tauto
    rcases hsub with h | h | h | h
    · rcases typeErrors_error_kinds rn col rule s r h with h' | h' | h' <;> simp [h']
    · obtain ⟨m, h'⟩ := minCheck_error_kinds rn col rule s r h
      simp [h']
    · obtain ⟨m, h'⟩ := maxCheck_error_kinds rn col rule s r h
      simp [h']
    · obtain ⟨l, h'⟩ := allowedCheck_error_kinds rn col rule s r h
      simp [h']

theorem checkColumn_cnf_count (cols : List String) (rn : ℕ) (row : GRow)
    (col' : String) (rule : FieldRule) (c : String) (hc : c ∉ cols) :
    (checkColumn cols rn row col' rule).1.countP (isCNFfor c) =
      if col' = c then 1 else 0 := by
  by_cases hmem : col' ∈ cols
  · have hne : col' ≠ c := fun h => hc (h ▸ hmem)
    rw [if_neg hne]
    simp only [checkColumn, if_pos hmem]
    rw [List.countP_eq_zero]
    intro r hr
    have := checkCell_no_columnNotFound rn col' rule (rowGet row col') r hr
    simp [isCNFfor, this]
  · simp only [checkColumn, if_neg hmem]
    by_cases he : col' = c <;>
      simp [isCNFfor, he, List.countP_cons, List.countP_nil]

theorem checkRow_cnf_count (cols : List String) (rn : ℕ) (row : GRow)
    (rules : List (String × FieldRule)) (c : String) (hc : c ∉ cols)
    (hnf : (checkRow cols rn row rules).2 = false) :
    (checkRow cols rn row rules).1.countP (isCNFfor c) =
      rules.countP (fun p => p.1 == c) := by
  induction rules with
  | nil => simp [checkRow]
  | cons hd tl ih =>
    obtain ⟨c', r'⟩ := hd
    cases hf : (checkColumn cols rn row c' r').2 with
    | true => simp [checkRow, hf] at hnf
    | false =>
      have hnf' : (checkRow cols rn row tl).2 = false := by
        simpa [checkRow, hf] using hnf
      simp only [checkRow, hf, Bool.false_eq_true, if_false,
        List.countP_append, List.countP_cons, ih hnf',
        checkColumn_cnf_count cols rn row c' r' c hc]
      by_cases hcc : c' = c <;> simp [hcc] <;> omega

theorem validateRows_cnf_count (rules : List (String × FieldRule))
    (cols : List String) (rows : List GRow) (rn : ℕ) (c : String)
    (hc : c ∉ cols) (hnf : (validateRows rules cols rn rows).2 = false) :
    (validateRows rules cols rn rows).1.countP (isCNFfor c) =
      rows.length * rules.countP (fun p => p.1 == c) := by
  induction rows generalizing rn with
  | nil => simp [validateRows]
  | cons hd tl ih =>
    cases hf : (checkRow cols rn hd rules).2 with
    | true => simp [validateRows, hf] at hnf
    | false =>
      have hnf' : (validateRows rules cols (rn + 1) tl).2 = false := by
        simpa [validateRows, hf] using hnf
      simp [validateRows, hf, List.countP_append, ih (rn + 1) hnf',
        checkRow_cnf_count cols rn hd rules c hc hf]
      ring

/-- Claim C10 counterexample: the per-row `Column not found` emission is cut
short by a conversion fault — with missing column `"C"` and a faulting cell
under the `"A"` rule in the first of two rows, the run yields one such
record, not two. -/
theorem missing_column_not_per_row_cex :
    ("C" ∉ (⟨["A"], [[("A", some "x")], [("A", some "7")]]⟩ : Table).columns) ∧
    (validate_data [("C", {}), ("A", { min := some 0 })]
        ⟨["A"], [[("A", some "x")], [("A", some "7")]]⟩).1.countP
        (isCNFfor "C") ≠
      (⟨["A"], [[("A", some "x")], [("A", some "7")]]⟩ : Table).rows.length := by
  decide

/-- Claim C10 (corrected): in a run that completes without a conversion
fault, a configured column name absent from the table's column set yields
exactly one `Column not found in Excel file` record (Value `'N/A'`) per
table row — n rows give n records, and an empty table gives none. -/
theorem missing_column_record_per_row (rules : List (String × FieldRule))
    (t : Table) (c : String) (hc : c ∉ t.columns)
    (h1 : rules.countP (fun p => p.1 == c) = 1)
    (hnf : (validate_data rules t).2 = false) :
    (validate_data rules t).1.countP (isCNFfor c) = t.rows.length := by
  unfold validate_data at *
  rw [validateRows_cnf_count rules t.columns t.rows 2 c hc hnf, h1, Nat.mul_one]

theorem missing_column_record_per_row_witness :
    (validate_data [("C", {})] ⟨["A"], [[("A", some "1")]]⟩).1.countP
      (isCNFfor "C") =
      (⟨["A"], [[("A", some "1")]]⟩ : Table).rows.length :=
  missing_column_record_per_row [("C", {})] ⟨["A"], [[("A", some "1")]]⟩ "C"
    (by decide) (by decide) (by decide)

theorem tldOK_iff (cs : List Char) :
    tldOK cs = true ↔ cs ≠ [] ∧ ∀ c ∈ cs, isWordChar c = true := by
  cases cs with
  | nil => simp [tldOK]
  | cons c cs => simp [tldOK, List.all_eq_true]

theorem domTail_iff (cs : List Char) :
    domTail cs = true ↔
      ∃ d t, cs = d ++ '.' :: t ∧ (∀ c ∈ d, isLocalChar c = true) ∧
        t ≠ [] ∧ ∀ c ∈ t, isWordChar c = true := by
  induction cs with
  | nil =>
    constructor
    · intro h
      simp [domTail] at h
    · rintro ⟨d, t, heq, -⟩
      exact absurd heq (by simp)
  | cons c cs ih =>
    simp only [domTail, Bool.or_eq_true, Bool.and_eq_true]
    constructor
    · intro h
      rcases h with ⟨hdot, htld⟩ | ⟨hloc, htail⟩
      · obtain ⟨hne, hw⟩ := (tldOK_iff cs).mp htld
        have hc : c = '.' := by simpa using hdot
        subst hc
        exact ⟨[], cs, rfl, by simp, hne, hw⟩
      · obtain ⟨d, t, heq, hd, hne, hw⟩ := ih.mp htail
        subst heq
        refine ⟨c :: d, t, rfl, ?_, hne, hw⟩
        intro x hx
        rcases List.mem_cons.mp hx with rfl | hx
        · exact hloc
        · exact hd x hx
    · rintro ⟨d, t, heq, hd, hne, hw⟩
      cases d with
      | nil =>
        simp only [List.nil_append] at heq
        injection heq with h1 h2
        subst h1
        subst h2
        exact Or.inl ⟨by simp, (tldOK_iff _).mpr ⟨hne, hw⟩⟩
      | cons d0 ds =>
        simp only [List.cons_append] at heq
        injection heq with h1 h2
        subst h1
        subst h2
        refine Or.inr ⟨hd c (by simp), ?_⟩
        exact ih.mpr ⟨ds, t, rfl, fun x hx => hd x (by simp [hx]), hne, hw⟩

theorem domOK_iff (cs : List Char) :
    domOK cs = true ↔
      ∃ d t, cs = d ++ '.' :: t ∧ d ≠ [] ∧ (∀ c ∈ d, isLocalChar c = true) ∧
        t ≠ [] ∧ ∀ c ∈ t, isWordChar c = true := by
  cases cs with
  | nil =>
    constructor
    · intro h
      simp [domOK] at h
    · rintro ⟨d, t, heq, -⟩
      exact absurd heq (by simp)
  | cons c cs =>
    simp only [domOK, Bool.and_eq_true]
    constructor
    · intro h
      obtain ⟨hloc, htail⟩ := h
      obtain ⟨d, t, heq, hd, hne, hw⟩ := (domTail_iff cs).mp htail
      subst heq
      refine ⟨c :: d, t, rfl, by simp, ?_, hne, hw⟩
      intro x hx
      rcases List.mem_cons.mp hx with rfl | hx
      · exact hloc
      · exact hd x hx
    · rintro ⟨d, t, heq, hdne, hd, hne, hw⟩
      cases d with
      | nil => exact absurd rfl hdne
      | cons d0 ds =>
        simp only [List.cons_append] at heq
        injection heq with h1 h2
        subst h1
        subst h2
        refine ⟨hd c (by simp), ?_⟩
        exact (domTail_iff _).mpr ⟨ds, t, rfl, fun x hx => hd x (by simp [hx]), hne, hw⟩

theorem emailAfterLocal_iff (cs : List Char) :
    emailAfterLocal cs = true ↔
      ∃ l r, cs = l ++ '@' :: r ∧ (∀ c ∈ l, isLocalChar c = true) ∧
        domOK r = true := by
  induction cs with
  | nil =>
    constructor
    · intro h
      simp [emailAfterLocal] at h
    · rintro ⟨l, r, heq, -⟩
      exact absurd heq (by simp)
  | cons c cs ih =>
    by_cases hc : c = '@'
    · subst hc
      simp only [emailAfterLocal, if_pos rfl]
      constructor
      · intro h
        exact ⟨[], cs, rfl, by simp, h⟩
      · rintro ⟨l, r, heq, hl, hr⟩
        cases l with
        | nil =>
          simp only [List.nil_append] at heq
          injection heq with h1 h2
          subst h2
          exact hr
        | cons l0 ls =>
          simp only [List.cons_append] at heq
          injection heq with h1 h2
          have hll := hl l0 (by simp)
          rw [← h1] at hll
          exact absurd hll (by decide)
    · simp only [emailAfterLocal, if_neg hc, Bool.and_eq_true]
      constructor
      · rintro ⟨hloc, htail⟩
        obtain ⟨l, r, heq, hl, hr⟩ := ih.mp htail
        subst heq
        refine ⟨c :: l, r, rfl, ?_, hr⟩
        intro x hx
        rcases List.mem_cons.mp hx with rfl | hx
        · exact hloc
        · exact hl x hx
      · rintro ⟨l, r, heq, hl, hr⟩
        cases l with
        | nil =>
          simp only [List.nil_append] at heq
          injection heq with h1 h2
          exact absurd h1 hc
        | cons l0 ls =>
          simp only [List.cons_append] at heq
          injection heq with h1 h2
          subst h1
          subst h2
          exact ⟨hl c (by simp), ih.mpr ⟨ls, r, rfl,
            fun x hx => hl x (by simp [hx]), hr⟩⟩

theorem emailCore_iff (cs : List Char) :
    emailCore cs = true ↔ EmailPattern cs := by
  cases cs with
  | nil =>
    constructor
    · intro h
      simp [emailCore] at h
    · rintro ⟨l, d, t, heq, -⟩
      exact absurd heq (by simp)
  | cons c cs =>
    simp only [emailCore, Bool.and_eq_true]
    constructor
    · rintro ⟨hloc, hrest⟩
      obtain ⟨l, r, heq, hl, hr⟩ := (emailAfterLocal_iff cs).mp hrest
      obtain ⟨d, t, heqr, hdne, hd, htne, hw⟩ := (domOK_iff r).mp hr
      subst heqr
      subst heq
      refine ⟨c :: l, d, t, rfl, by simp, ?_, hdne, hd, htne, hw⟩
      intro x hx
      rcases List.mem_cons.mp hx with rfl | hx
      · exact hloc
      · exact hl x hx
    · rintro ⟨l, d, t, heq, hlne, hl, hdne, hd, htne, hw⟩
      cases l with
      | nil => exact absurd rfl hlne
      | cons l0 ls =>
        simp only [List.cons_append] at heq
        injection heq with h1 h2
        subst h1
        subst h2
        refine ⟨hl c (by simp), ?_⟩
        exact (emailAfterLocal_iff _).mpr ⟨ls, d ++ '.' :: t, rfl,
          fun x hx => hl x (by simp [hx]),
          (domOK_iff _).mpr ⟨d, t, rfl, hdne, hd, htne, hw⟩⟩

theorem EmailPattern_last {cs : List Char} (h : EmailPattern cs) :
    ∃ c, cs.getLast? = some c ∧ isWordChar c = true := by
  obtain ⟨l, d, t, heq, -, -, -, -, htne, hw⟩ := h
  subst heq
  have hrw : l ++ '@' :: (d ++ '.' :: t) = (l ++ '@' :: (d ++ ['.'])) ++ t := by
    simp
  rw [hrw, List.getLast?_append_of_ne_nil _ htne,
    List.getLast?_eq_getLast_of_ne_nil htne]
  exact ⟨t.getLast htne, rfl, hw _ (List.getLast_mem htne)⟩

/-- Claim C9 counterexample: Python's `$` also matches just before a newline
that ends the string, so `validate_email` accepts `"a@b.com\n"` although the
entire string does not match the pattern (its last character is not a word
character). -/
theorem email_trailing_newline_cex :
    validate_email "a@b.com\n" = true ∧ ¬ EmailPattern "a@b.com\n".toList := by
  refine ⟨by decide, fun h => ?_⟩
  obtain ⟨c, hc, hw⟩ := EmailPattern_last h
  have hl : "a@b.com\n".toList.getLast? = some '\n' := by decide
  rw [hl] at hc
  injection hc with hc'
  subst hc'
  exact absurd hw (by decide)

/-- Claim C9 (corrected): `validate_email` returns true iff the entire
string — or, per Python's end-anchor semantics, the entire string minus one
trailing newline — matches `local-part@domain.tld`, with local-part and
domain non-empty runs of word characters, dots and hyphens and tld a
non-empty run of word characters; in particular `"a@b.com"` is accepted
while `"a@b"` and `"not-an-email"` are rejected. -/
theorem email_match_characterization (s : String) :
    validate_email s = true ↔
      (EmailPattern s.toList ∨
        (s.toList.getLast? = some '\n' ∧ EmailPattern s.toList.dropLast)) := by
  simp only [validate_email, Bool.or_eq_true, Bool.and_eq_true, beq_iff_eq,
    emailCore_iff]
